import Mathlib

/-!
Shallow embedding of the `ai_proxy_service` messaging backend (src/main.py).

The program is a FastAPI application backed by PostgreSQL with three tables:
`users(username PK, codeword, is_human)`,
`tokens(token PK, username FK, expires)`,
`messages(message_id SERIAL PK, reply_to_message_id, from_username FK,
reply_to_username, message, datetime)`.

We model the three tables as Lean lists of rows, timestamps as integers
(`TIMESTAMPTZ` amounts to a point on a total time line; only order and the
24-hour offset matter to the program), and each handler of `main.py` as a
pure function from the relevant store state and request data to its
response.  SQL `SELECT ... WHERE ... ORDER BY message_id ASC LIMIT n`
becomes filter / insertion-sort by `message_id` / take, and the inner
`JOIN users u ON u.username = m.from_username` becomes a `filterMap`
that looks the sender up in the users table.  Handlers that can answer
with an HTTP error return `Except Nat _` carrying the status code.
-/

/-- Row of the `users` table. -/
structure User where
  username : String
  codeword : String
  is_human : Bool
deriving DecidableEq, Repr

/-- Row of the `tokens` table. -/
structure TokenRow where
  token : String
  username : String
  expires : Int
deriving DecidableEq, Repr

/-- Row of the `messages` table.  `message_id` is assigned by the store
(`SERIAL`); `reply_to_username` is `none` for SQL NULL. -/
structure Message where
  message_id : Nat
  reply_to_message_id : Option Nat
  from_username : String
  reply_to_username : Option String
  message : String
  datetime : Int
deriving DecidableEq, Repr

/-- Request body of the send endpoints (pydantic model `MessageIn`). -/
structure MessageIn where
  reply_to_message_id : Option Nat := none
  message : String
deriving DecidableEq, Repr

/-- Response row of the read endpoints (pydantic model `MessageOut`):
a message row joined with the sender's current `is_human` flag. -/
structure MessageOut where
  message_id : Nat
  reply_to_message_id : Option Nat
  from_username : String
  from_is_human : Bool
  reply_to_username : Option String
  message : String
  datetime : Int
deriving DecidableEq, Repr

/-- `JOIN users u ON u.username = m.from_username`, per message row:
produces the joined output row when the sender exists in `users`
(guaranteed in the program by the FK on `from_username`), nothing
otherwise (an inner join drops such rows). -/
def rowOut (users : List User) (m : Message) : Option MessageOut :=
  match users.find? (fun u => u.username == m.from_username) with
  | some u => some ⟨m.message_id, m.reply_to_message_id, m.from_username,
      u.is_human, m.reply_to_username, m.message, m.datetime⟩
  | none => none

/-- The joined relation `messages m JOIN users u ON u.username = m.from_username`. -/
def joined (users : List User) (msgs : List Message) : List MessageOut :=
  msgs.filterMap (rowOut users)

/-- `ORDER BY m.message_id ASC`. -/
def sortById (rows : List MessageOut) : List MessageOut :=
  rows.insertionSort (fun a b => a.message_id ≤ b.message_id)

instance : IsTotal MessageOut (fun a b => a.message_id ≤ b.message_id) :=
  ⟨fun a b => Nat.le_total a.message_id b.message_id⟩

instance : IsTrans MessageOut (fun a b => a.message_id ≤ b.message_id) :=
  ⟨fun _ _ _ hab hbc => Nat.le_trans hab hbc⟩

/-- The `from_user` condition of `get_all_messages`: Python adds
`m.from_username = $i` to the WHERE clause only `if from_user:` — i.e.
only when the parameter is present AND non-empty (truthiness). -/
def passesFromUser (from_user : Option String) (r : MessageOut) : Bool :=
  match from_user with
  | none => true
  | some s => if s = "" then true else r.from_username == s

/-- The `to_user` condition of `get_all_messages`: `m.reply_to_username = $i`
added only `if to_user:` (present and non-empty).  SQL equality with a
NULL `reply_to_username` is not satisfied, hence `== some s`. -/
def passesToUser (to_user : Option String) (r : MessageOut) : Bool :=
  match to_user with
  | none => true
  | some s => if s = "" then true else r.reply_to_username == some s

/-- Handler `get_all_messages` (`GET /messages`): dynamic WHERE clause from
`from_id` (cursor, `m.message_id > $1`), the optional truthy filters,
ascending order by `message_id`, `LIMIT limit`.  `auth_user` is the
username resolved by `verify_token`; the query itself never uses it.
`limit` is a `Nat` (PostgreSQL rejects a negative LIMIT outright). -/
def get_all_messages (users : List User) (msgs : List Message)
    (from_id : Nat) (from_user to_user : Option String) (limit : Nat)
    (auth_user : String) : List MessageOut :=
  (sortById ((joined users msgs).filter (fun r =>
    decide (from_id < r.message_id) && passesFromUser from_user r
      && passesToUser to_user r))).take limit

/-- Handler `get_broadcast` (`GET /participants`): messages past the cursor
whose `reply_to_username` IS NULL or equals the empty string, ascending,
no LIMIT.  (`username` is the authenticated caller, unused by the query.) -/
def get_broadcast (users : List User) (msgs : List Message)
    (from_id : Nat) (username : String) : List MessageOut :=
  sortById ((joined users msgs).filter (fun r =>
    decide (from_id < r.message_id) &&
      (r.reply_to_username == none || r.reply_to_username == some "")))

/-- The SQL query of handler `get_direct`: messages past the cursor with
`m.reply_to_username = $2`, ascending, no LIMIT. -/
def queryDirect (users : List User) (msgs : List Message)
    (from_id : Nat) (username : String) : List MessageOut :=
  sortById ((joined users msgs).filter (fun r =>
    decide (from_id < r.message_id) && (r.reply_to_username == some username)))

/-- Handler `get_direct` (`GET /participants/{username}`): 403 unless the
requested inbox username equals the authenticated caller, else the
direct-message query. -/
def get_direct (users : List User) (msgs : List Message)
    (username : String) (from_id : Nat) (auth_user : String) :
    Except Nat (List MessageOut) :=
  if username ≠ auth_user then .error 403
  else .ok (queryDirect users msgs from_id username)

/-- Python `a.startswith(p)` over code points (a Python `str` is a sequence
of code points, embedded here as the `data` of a Lean `String`): first
argument the pattern `p`, second the string `a`. -/
def charsStartWith : List Char → List Char → Bool
  | [], _ => true
  | _ :: _, [] => false
  | p :: ps, c :: cs => p == c && charsStartWith ps cs

/-- Dependency `verify_token`: 401 on a missing header or one not starting
with `Bearer `; otherwise slice the header as `authorization[7:]`, look
that token up in `tokens`, and reject with 401 when absent or when
`expires < now`; on success return the owner. -/
def verify_token (tokens : List TokenRow) (now : Int)
    (authorization : Option String) : Except Nat String :=
  match authorization with
  | none => .error 401
  | some a =>
    if ¬ charsStartWith "Bearer ".data a.data then .error 401
    else
      match tokens.find? (fun r => r.token == String.mk (a.data.drop 7)) with
      | none => .error 401
      | some row => if row.expires < now then .error 401 else .ok row.username

/-- Handler `authenticate` (`POST /auth/{username}`): look the user up; 403
when unknown or on codeword mismatch; otherwise insert a fresh random
token with `expires = now + 24h` (86400 s) and return it with its expiry.
The random `secrets.token_hex(16)` value is passed in as `newToken`. -/
def authenticate (users : List User) (tokens : List TokenRow) (now : Int)
    (newToken : String) (username : String) (codeword : String) :
    Except Nat (List TokenRow × String × Int) :=
  match users.find? (fun u => u.username == username) with
  | none => .error 403
  | some user =>
    if user.codeword ≠ codeword then .error 403
    else .ok (tokens ++ [⟨newToken, username, now + 86400⟩], newToken, now + 86400)

/-- Handler `send_broadcast` (`POST /participants`): INSERT a message with
the authenticated `from_user` as sender, the body's text and optional
reply id, current time, and no `reply_to_username` (SQL NULL).
`nextId` is the id the SERIAL sequence assigns to this insert. -/
def send_broadcast (msgs : List Message) (nextId : Nat) (now : Int)
    (msg : MessageIn) (from_user : String) : List Message :=
  msgs ++ [⟨nextId, msg.reply_to_message_id, from_user, none, msg.message, now⟩]

/-- Handler `send_direct` (`POST /participants/{to_user}`): INSERT a message
with the authenticated `from_user` as sender and `reply_to_username`
equal to the path parameter `to_user`. -/
def send_direct (msgs : List Message) (nextId : Nat) (now : Int)
    (to_user : String) (msg : MessageIn) (from_user : String) : List Message :=
  msgs ++ [⟨nextId, msg.reply_to_message_id, from_user, some to_user, msg.message, now⟩]

/-- A bootstrap configuration entry as decoded from the USERS JSON:
each field may be absent (`entry["username"]` / `entry["codeword"]`
raise KeyError when missing; `is_human` defaults to True via `.get`). -/
structure RawEntry where
  username : Option String := none
  codeword : Option String := none
  is_human : Option Bool := none
deriving DecidableEq, Repr

/-- The per-entry body of the bootstrap loop in `lifespan`: SELECT the
existing row; if present and the codeword differs, UPDATE it (leaving
`is_human` untouched); if absent, INSERT the new user. -/
def upsertUser (users : List User) (username codeword : String)
    (is_human : Bool) : List User :=
  match users.find? (fun u => u.username == username) with
  | some existing =>
    if existing.codeword ≠ codeword then
      users.map (fun u => if u.username == username then
        { u with codeword := codeword } else u)
    else users
  | none => users ++ [⟨username, codeword, is_human⟩]

/-- The bootstrap loop of `lifespan` over the parsed USERS entries.  The
`try/except` in the source wraps the WHOLE loop: a malformed entry (a
KeyError on `username` or `codeword`) is printed and terminates the loop,
leaving earlier upserts in place, skipping all later entries, and letting
startup continue (modelled by this function returning normally). -/
def initUsers : List RawEntry → List User → List User
  | [], users => users
  | e :: rest, users =>
    match e.username, e.codeword with
    | some un, some cw => initUsers rest (upsertUser users un cw (e.is_human.getD true))
    | _, _ => users

/-! Helper lemmas about the query pipeline. -/

theorem rowOut_fields {users : List User} {m : Message} {r : MessageOut}
    (h : rowOut users m = some r) :
    r.message_id = m.message_id ∧ r.from_username = m.from_username ∧
      r.reply_to_username = m.reply_to_username := by
  unfold rowOut at h
  cases hf : users.find? (fun u => u.username == m.from_username) with
  | none => rw [hf] at h; exact absurd h (by simp)
  | some u =>
    rw [hf] at h
    simp only [Option.some.injEq] at h
    subst h
    exact ⟨rfl, rfl, rfl⟩

theorem mem_sortById {r : MessageOut} {l : List MessageOut} :
    r ∈ sortById l ↔ r ∈ l :=
  List.mem_insertionSort _

theorem sortById_sorted (l : List MessageOut) :
    (sortById l).Sorted (fun a b => a.message_id ≤ b.message_id) :=
  List.sorted_insertionSort _ l

theorem mem_joined {users : List User} {msgs : List Message} {r : MessageOut} :
    r ∈ joined users msgs ↔ ∃ m ∈ msgs, rowOut users m = some r :=
  List.mem_filterMap

/-- C6: on `GET /participants/{username}`, a caller whose authenticated
username differs from the requested inbox gets 403 and no messages, and a
caller requesting their own inbox gets the direct-message query result. -/
theorem get_direct_ownership (users : List User) (msgs : List Message)
    (username : String) (from_id : Nat) (auth_user : String) :
    (username ≠ auth_user →
      get_direct users msgs username from_id auth_user = .error 403) ∧
    (username = auth_user →
      get_direct users msgs username from_id auth_user
        = .ok (queryDirect users msgs from_id username)) := by
  constructor
  · intro hne
    simp [get_direct, hne]
  · intro heq
    simp [get_direct, heq]

theorem get_direct_ownership_witness :
    (("alice" : String) ≠ "bob" ∧
      get_direct [] [] "alice" 0 "bob" = .error 403) ∧
    (("alice" : String) = "alice" ∧
      get_direct [] [] "alice" 0 "alice" = .ok (queryDirect [] [] 0 "alice")) :=
  ⟨⟨by decide, (get_direct_ownership [] [] "alice" 0 "bob").1 (by decide)⟩,
   ⟨rfl, (get_direct_ownership [] [] "alice" 0 "alice").2 rfl⟩⟩

/-- C8: every message row appended by `send_broadcast` or `send_direct`
records the authenticated caller as `from_username`, whatever the request
body (and, for `send_direct`, whatever the path parameter) contains: a row
of the store after the call is an old row or carries the caller as sender. -/
theorem sender_is_authenticated_user (msgs : List Message) (nextId : Nat)
    (now : Int) (msg : MessageIn) (from_user to_user : String) :
    (∀ m ∈ send_broadcast msgs nextId now msg from_user,
      m ∈ msgs ∨ m.from_username = from_user) ∧
    (∀ m ∈ send_direct msgs nextId now to_user msg from_user,
      m ∈ msgs ∨ m.from_username = from_user) := by
  constructor
  · intro m hm
    rcases List.mem_append.1 hm with h | h
    · exact Or.inl h
    · simp only [List.mem_singleton] at h
      subst h
      exact Or.inr rfl
  · intro m hm
    rcases List.mem_append.1 hm with h | h
    · exact Or.inl h
    · simp only [List.mem_singleton] at h
      subst h
      exact Or.inr rfl

theorem sender_is_authenticated_user_witness :
    (⟨1, none, "eve", none, "hi", 0⟩ : Message)
        ∈ send_broadcast [] 1 0 ⟨none, "hi"⟩ "eve" ∧
    ((⟨1, none, "eve", none, "hi", 0⟩ : Message) ∈ ([] : List Message) ∨
      (⟨1, none, "eve", none, "hi", 0⟩ : Message).from_username = "eve") :=
  ⟨by decide,
   (sender_is_authenticated_user [] 1 0 ⟨none, "hi"⟩ "eve" "bob").1 _ (by decide)⟩

/-- C9: the result of `GET /messages` is a function of the store and the
filter parameters only — the handler never consults `auth_user` beyond the
token gate, so two authenticated callers issuing the same query against
the same state receive identical sequences (any caller can thus read any
direct traffic through the filters). -/
theorem get_all_messages_caller_independent (users : List User)
    (msgs : List Message) (from_id : Nat) (from_user to_user : Option String)
    (limit : Nat) (auth_user_1 auth_user_2 : String) :
    get_all_messages users msgs from_id from_user to_user limit auth_user_1
      = get_all_messages users msgs from_id from_user to_user limit auth_user_2 :=
  rfl

/-- C10: the row inserted by `send_broadcast` has `reply_to_username`
NULL (never the empty string), and the row inserted by `send_direct` has
`reply_to_username` equal to the path parameter `to_user`, which the
routing layer guarantees non-empty (a path parameter matches at least one
character), hence never the empty string: the empty-string recipient
encoding does not arise from the public endpoints. -/
theorem endpoint_recipient_shape (msgs : List Message) (nextId : Nat)
    (now : Int) (msg : MessageIn) (from_user to_user : String)
    (hto : to_user ≠ "") :
    (∃ m, (send_broadcast msgs nextId now msg from_user).getLast? = some m ∧
      m.reply_to_username = none) ∧
    (∃ m, (send_direct msgs nextId now to_user msg from_user).getLast? = some m ∧
      m.reply_to_username = some to_user ∧ m.reply_to_username ≠ some "") := by
  constructor
  · exact ⟨_, List.getLast?_concat _, rfl⟩
  · refine ⟨_, List.getLast?_concat _, rfl, ?_⟩
    simp only [ne_eq, Option.some.injEq]
    exact hto

theorem endpoint_recipient_shape_witness :
    ("bob" : String) ≠ "" ∧
    ((∃ m, (send_broadcast [] 1 0 ⟨none, "hi"⟩ "alice").getLast? = some m ∧
        m.reply_to_username = none) ∧
      (∃ m, (send_direct [] 1 0 "bob" ⟨none, "hi"⟩ "alice").getLast? = some m ∧
        m.reply_to_username = some "bob" ∧ m.reply_to_username ≠ some "")) :=
  ⟨by decide, endpoint_recipient_shape [] 1 0 ⟨none, "hi"⟩ "alice" "bob" (by decide)⟩

theorem charsStartWith_append (p rest : List Char) :
    charsStartWith p (p ++ rest) = true := by
  induction p with
  | nil => rfl
  | cons c cs ih => simp [charsStartWith, ih]

theorem bearer_header_drop (t : String) :
    ("Bearer " ++ t).data.drop 7 = t.data := by
  rw [String.data_append]
  exact List.drop_left "Bearer ".data t.data

theorem joined_ids_sublist (users : List User) (msgs : List Message) :
    ((joined users msgs).map MessageOut.message_id).Sublist
      (msgs.map Message.message_id) := by
  unfold joined
  induction msgs with
  | nil => simp
  | cons m rest ih =>
    cases hf : rowOut users m with
    | none =>
      rw [List.filterMap_cons_none hf, List.map_cons]
      exact ih.cons _
    | some r =>
      rw [List.filterMap_cons_some hf, List.map_cons, List.map_cons,
        (rowOut_fields hf).1]
      exact ih.cons₂ _

theorem take_sortById_sorted_bounded (l : List MessageOut) (n : Nat)
    (hnd : (l.map MessageOut.message_id).Nodup) :
    (((sortById l).take n).map MessageOut.message_id).Sorted (· < ·) ∧
    ((sortById l).take n).length ≤ n := by
  have hsorted : ((sortById l).map MessageOut.message_id).Sorted (· ≤ ·) :=
    List.pairwise_map.mpr (sortById_sorted l)
  have hnd2 : ((sortById l).map MessageOut.message_id).Nodup :=
    (((List.perm_insertionSort _ l).map MessageOut.message_id).nodup_iff).mpr hnd
  constructor
  · have hle : (((sortById l).take n).map MessageOut.message_id).Sorted (· ≤ ·) := by
      rw [List.map_take]
      exact List.Pairwise.sublist (List.take_sublist _ _) hsorted
    have hnd3 : (((sortById l).take n).map MessageOut.message_id).Nodup := by
      rw [List.map_take]
      exact List.Nodup.sublist (List.take_sublist _ _) hnd2
    exact hle.lt_of_le hnd3
  · simp

theorem mem_get_all_messages {users : List User} {msgs : List Message}
    {from_id : Nat} {from_user to_user : Option String} {limit : Nat}
    {auth_user : String} {r : MessageOut}
    (hr : r ∈ get_all_messages users msgs from_id from_user to_user limit auth_user) :
    r ∈ joined users msgs ∧ from_id < r.message_id ∧
      passesFromUser from_user r = true ∧ passesToUser to_user r = true := by
  have hr2 : r ∈ sortById ((joined users msgs).filter (fun r =>
      decide (from_id < r.message_id) && passesFromUser from_user r
        && passesToUser to_user r)) := List.take_subset _ _ hr
  have hr3 := List.mem_filter.1 (mem_sortById.1 hr2)
  refine ⟨hr3.1, ?_⟩
  have hp := hr3.2
  simp only [Bool.and_eq_true, decide_eq_true_eq] at hp
  exact ⟨hp.1.1, hp.1.2, hp.2⟩

/-- C1: an authenticated `GET /messages` with cursor `from_id` and limit
`limit` returns only messages with `message_id` strictly above the cursor,
in strictly ascending `message_id` order, and at most `limit` of them.
The hypothesis is the primary-key invariant of the `messages` table:
stored ids are pairwise distinct. -/
theorem get_all_messages_cursor_sorted_bounded (users : List User)
    (msgs : List Message) (from_id : Nat) (from_user to_user : Option String)
    (limit : Nat) (auth_user : String)
    (hpk : (msgs.map Message.message_id).Nodup) :
    (∀ r ∈ get_all_messages users msgs from_id from_user to_user limit auth_user,
      from_id < r.message_id) ∧
    ((get_all_messages users msgs from_id from_user to_user limit auth_user).map
      MessageOut.message_id).Sorted (· < ·) ∧
    (get_all_messages users msgs from_id from_user to_user limit auth_user).length
      ≤ limit := by
  have hnd : ((((joined users msgs).filter (fun r =>
      decide (from_id < r.message_id) && passesFromUser from_user r
        && passesToUser to_user r)).map MessageOut.message_id)).Nodup :=
    List.Nodup.sublist (List.Sublist.map _ (List.filter_sublist _))
      (List.Nodup.sublist (joined_ids_sublist users msgs) hpk)
  refine ⟨fun r hr => (mem_get_all_messages hr).2.1, ?_, ?_⟩
  · exact (take_sortById_sorted_bounded _ limit hnd).1
  · exact (take_sortById_sorted_bounded _ limit hnd).2

theorem get_all_messages_cursor_sorted_bounded_witness :
    (([⟨1, none, "alice", none, "hi", 0⟩, ⟨2, none, "alice", some "bob", "yo", 1⟩]
        : List Message).map Message.message_id).Nodup ∧
    ((∀ r ∈ get_all_messages [⟨"alice", "x", true⟩]
        [⟨1, none, "alice", none, "hi", 0⟩, ⟨2, none, "alice", some "bob", "yo", 1⟩]
        1 none none 100 "bob", 1 < r.message_id) ∧
      ((get_all_messages [⟨"alice", "x", true⟩]
        [⟨1, none, "alice", none, "hi", 0⟩, ⟨2, none, "alice", some "bob", "yo", 1⟩]
        1 none none 100 "bob").map MessageOut.message_id).Sorted (· < ·) ∧
      (get_all_messages [⟨"alice", "x", true⟩]
        [⟨1, none, "alice", none, "hi", 0⟩, ⟨2, none, "alice", some "bob", "yo", 1⟩]
        1 none none 100 "bob").length ≤ 100) :=
  ⟨by decide,
   get_all_messages_cursor_sorted_bounded [⟨"alice", "x", true⟩]
     [⟨1, none, "alice", none, "hi", 0⟩, ⟨2, none, "alice", some "bob", "yo", 1⟩]
     1 none none 100 "bob" (by decide)⟩

/-- C2 counterexample: a stored message whose `reply_to_username` is the
empty string — by the spec a broadcast — is returned by the direct-message
query for the empty username: `query_direct(0, "")` matches it via SQL
equality, so "never appears in query_direct(min_id, u) for any username u"
fails at u = "". -/
theorem queryDirect_empty_username_cex :
    (⟨1, none, "alice", some "", "hi", 0⟩ : Message).reply_to_username = some "" ∧
    queryDirect [⟨"alice", "x", true⟩] [⟨1, none, "alice", some "", "hi", 0⟩] 0 ""
      = [⟨1, none, "alice", true, some "", "hi", 0⟩] :=
  ⟨rfl, by decide⟩

/-- C2 (amended): for a stored message past the cursor whose sender is in
the users table, a null-or-empty `reply_to_username` puts its joined row
in `get_broadcast` and keeps it out of `queryDirect` for every NON-EMPTY
username (the empty username retrieves empty-string-addressed rows), and
a non-empty recipient `U` puts it in `queryDirect` for `U` and keeps it
out of `get_broadcast`. -/
theorem broadcast_direct_partition (users : List User) (msgs : List Message)
    (from_id : Nat) (caller : String) (m : Message) (r : MessageOut)
    (hm : m ∈ msgs) (hr : rowOut users m = some r)
    (hcur : from_id < m.message_id) :
    ((m.reply_to_username = none ∨ m.reply_to_username = some "") →
      r ∈ get_broadcast users msgs from_id caller ∧
      ∀ u, u ≠ "" → r ∉ queryDirect users msgs from_id u) ∧
    (∀ U, U ≠ "" → m.reply_to_username = some U →
      r ∈ queryDirect users msgs from_id U ∧
      r ∉ get_broadcast users msgs from_id caller) := by
  obtain ⟨hid, hfrom, hreply⟩ := rowOut_fields hr
  have hmem : r ∈ joined users msgs := mem_joined.2 ⟨m, hm, hr⟩
  constructor
  · intro hb
    constructor
    · unfold get_broadcast
      rw [mem_sortById, List.mem_filter]
      refine ⟨hmem, ?_⟩
      simp only [Bool.and_eq_true, Bool.or_eq_true, decide_eq_true_eq, beq_iff_eq]
      refine ⟨by rw [hid]; exact hcur, ?_⟩
      rcases hb with h | h
      · left; rw [hreply, h]
      · right; rw [hreply, h]
    · intro u hu hin
      unfold queryDirect at hin
      rw [mem_sortById, List.mem_filter] at hin
      have hp := hin.2
      simp only [Bool.and_eq_true, decide_eq_true_eq, beq_iff_eq] at hp
      rcases hb with h | h
      · rw [hreply, h] at hp
        exact Option.noConfusion hp.2
      · rw [hreply, h] at hp
        exact hu (Option.some.inj hp.2).symm
  · intro U hU hrepU
    constructor
    · unfold queryDirect
      rw [mem_sortById, List.mem_filter]
      refine ⟨hmem, ?_⟩
      simp only [Bool.and_eq_true, decide_eq_true_eq, beq_iff_eq]
      exact ⟨by rw [hid]; exact hcur, by rw [hreply]; exact hrepU⟩
    · intro hin
      unfold get_broadcast at hin
      rw [mem_sortById, List.mem_filter] at hin
      have hp := hin.2
      simp only [Bool.and_eq_true, Bool.or_eq_true, decide_eq_true_eq,
        beq_iff_eq] at hp
      rcases hp.2 with h | h
      · rw [hreply, hrepU] at h
        exact Option.noConfusion h
      · rw [hreply, hrepU] at h
        exact hU (Option.some.inj h)

theorem broadcast_direct_partition_witness :
    ((⟨1, none, "alice", none, "hi", 0⟩ : Message)
        ∈ ([⟨1, none, "alice", none, "hi", 0⟩] : List Message) ∧
      rowOut [⟨"alice", "x", true⟩] ⟨1, none, "alice", none, "hi", 0⟩
        = some ⟨1, none, "alice", true, none, "hi", 0⟩ ∧
      (0 : Nat) < 1) ∧
    ((((⟨1, none, "alice", none, "hi", 0⟩ : Message).reply_to_username = none ∨
        (⟨1, none, "alice", none, "hi", 0⟩ : Message).reply_to_username = some "") →
      (⟨1, none, "alice", true, none, "hi", 0⟩ : MessageOut)
          ∈ get_broadcast [⟨"alice", "x", true⟩]
            [⟨1, none, "alice", none, "hi", 0⟩] 0 "bob" ∧
      ∀ u, u ≠ "" → (⟨1, none, "alice", true, none, "hi", 0⟩ : MessageOut)
          ∉ queryDirect [⟨"alice", "x", true⟩]
            [⟨1, none, "alice", none, "hi", 0⟩] 0 u) ∧
    (∀ U, U ≠ "" →
      (⟨1, none, "alice", none, "hi", 0⟩ : Message).reply_to_username = some U →
      (⟨1, none, "alice", true, none, "hi", 0⟩ : MessageOut)
          ∈ queryDirect [⟨"alice", "x", true⟩]
            [⟨1, none, "alice", none, "hi", 0⟩] 0 U ∧
      (⟨1, none, "alice", true, none, "hi", 0⟩ : MessageOut)
          ∉ get_broadcast [⟨"alice", "x", true⟩]
            [⟨1, none, "alice", none, "hi", 0⟩] 0 "bob")) :=
  ⟨⟨by decide, by decide, by decide⟩,
   broadcast_direct_partition [⟨"alice", "x", true⟩]
     [⟨1, none, "alice", none, "hi", 0⟩] 0 "bob"
     ⟨1, none, "alice", none, "hi", 0⟩ ⟨1, none, "alice", true, none, "hi", 0⟩
     (by decide) (by decide) (by decide)⟩

/-- C5 counterexample: supplying the EMPTY string as the `from_user` filter
does not restrict the result — Python only adds the SQL condition
`if from_user:` and the empty string is falsy — so a message from
"alice" (≠ "") is still returned. -/
theorem get_all_messages_empty_filter_cex :
    get_all_messages [⟨"alice", "x", true⟩] [⟨1, none, "alice", none, "hi", 0⟩]
        0 (some "") none 100 "bob"
      = [⟨1, none, "alice", true, none, "hi", 0⟩] ∧
    ("alice" : String) ≠ "" :=
  ⟨by decide, by decide⟩

/-- C5 (amended): a supplied NON-EMPTY `from_user` value is an exact match
on `from_username` of every returned message, and a supplied NON-EMPTY
`to_user` value an exact match on `reply_to_username`; a supplied empty
string is treated as an absent filter (Python truthiness). -/
theorem get_all_messages_filters_exact (users : List User)
    (msgs : List Message) (from_id : Nat) (from_user to_user : Option String)
    (limit : Nat) (auth_user : String) :
    (∀ s, from_user = some s → s ≠ "" →
      ∀ r ∈ get_all_messages users msgs from_id from_user to_user limit auth_user,
        r.from_username = s) ∧
    (∀ s, to_user = some s → s ≠ "" →
      ∀ r ∈ get_all_messages users msgs from_id from_user to_user limit auth_user,
        r.reply_to_username = some s) := by
  constructor
  · intro s hs hne r hr
    have hp := (mem_get_all_messages hr).2.2.1
    rw [hs] at hp
    simp only [passesFromUser, if_neg hne] at hp
    exact eq_of_beq hp
  · intro s hs hne r hr
    have hp := (mem_get_all_messages hr).2.2.2
    rw [hs] at hp
    simp only [passesToUser, if_neg hne] at hp
    exact eq_of_beq hp

theorem get_all_messages_filters_exact_witness :
    ((some "alice" : Option String) = some "alice" ∧ ("alice" : String) ≠ "" ∧
      ∀ r ∈ get_all_messages [⟨"alice", "x", true⟩, ⟨"bob", "y", true⟩]
          [⟨1, none, "alice", none, "hi", 0⟩, ⟨2, none, "bob", some "alice", "yo", 1⟩]
          0 (some "alice") none 100 "bob",
        r.from_username = "alice") ∧
    ((some "alice" : Option String) = some "alice" ∧ ("alice" : String) ≠ "" ∧
      ∀ r ∈ get_all_messages [⟨"alice", "x", true⟩, ⟨"bob", "y", true⟩]
          [⟨1, none, "alice", none, "hi", 0⟩, ⟨2, none, "bob", some "alice", "yo", 1⟩]
          0 none (some "alice") 100 "bob",
        r.reply_to_username = some "alice") :=
  ⟨⟨rfl, by decide,
    (get_all_messages_filters_exact [⟨"alice", "x", true⟩, ⟨"bob", "y", true⟩]
      [⟨1, none, "alice", none, "hi", 0⟩, ⟨2, none, "bob", some "alice", "yo", 1⟩]
      0 (some "alice") none 100 "bob").1 "alice" rfl (by decide)⟩,
   ⟨rfl, by decide,
    (get_all_messages_filters_exact [⟨"alice", "x", true⟩, ⟨"bob", "y", true⟩]
      [⟨1, none, "alice", none, "hi", 0⟩, ⟨2, none, "bob", some "alice", "yo", 1⟩]
      0 none (some "alice") 100 "bob").2 "alice" rfl (by decide)⟩⟩

theorem verify_token_bearer (tokens : List TokenRow) (now : Int) (t : String) :
    verify_token tokens now (some ("Bearer " ++ t)) =
      match tokens.find? (fun r => r.token == t) with
      | none => .error 401
      | some row => if row.expires < now then .error 401 else .ok row.username := by
  simp only [verify_token]
  have hdrop : String.mk (("Bearer " ++ t).data.drop 7) = t := by
    rw [bearer_header_drop]
  rw [if_neg (by simp [String.data_append, charsStartWith])]
  simp only [hdrop]

/-- C3 counterexample: at the instant `now = expires` the stored expiry is
not in the past (`expires < now` is false), so `verify_token` accepts the
token — but the claim requires validity only when `now < expires`,
i.e. rejection here. -/
theorem verify_token_boundary_cex :
    verify_token [⟨"tok", "alice", 5⟩] 5 (some "Bearer tok") = .ok "alice" ∧
    ¬ ((5 : Int) < 5) :=
  ⟨rfl, by decide⟩

/-- C3 (amended): presented with a well-formed bearer header, token
validation succeeds returning the owning username iff the token exists in
the store and `now ≤ expires` at the moment of the check (the code rejects
exactly when `expires < now`); in every other case it fails with 401.
The hypothesis is the primary-key invariant of the `tokens` table. -/
theorem verify_token_ok_iff (tokens : List TokenRow) (now : Int) (t u : String)
    (hpk : (tokens.map TokenRow.token).Nodup) :
    (verify_token tokens now (some ("Bearer " ++ t)) = .ok u ↔
      ∃ row ∈ tokens, row.token = t ∧ row.username = u ∧ now ≤ row.expires) ∧
    ((¬ ∃ row ∈ tokens, row.token = t ∧ now ≤ row.expires) →
      verify_token tokens now (some ("Bearer " ++ t)) = .error 401) := by
  have hvt := verify_token_bearer tokens now t
  cases hfind : tokens.find? (fun r => r.token == t) with
  | none =>
    rw [hfind] at hvt
    have hnone := List.find?_eq_none.1 hfind
    constructor
    · rw [hvt]
      constructor
      · intro h
        exact absurd h (by simp)
      · rintro ⟨row, hrow, hteq, _, _⟩
        exact absurd (by simp [hteq]) (hnone row hrow)
    · intro _
      rw [hvt]
  | some row =>
    rw [hfind] at hvt
    have hvt2 : verify_token tokens now (some ("Bearer " ++ t)) =
        if row.expires < now then .error 401 else .ok row.username := hvt
    have hrowmem := List.mem_of_find?_eq_some hfind
    have hbeq := List.find?_some hfind
    have hrowt : row.token = t := eq_of_beq hbeq
    have hinj := List.inj_on_of_nodup_map hpk
    constructor
    · rw [hvt2]
      by_cases hexp : row.expires < now
      · rw [if_pos hexp]
        constructor
        · intro h
          exact absurd h (by simp)
        · rintro ⟨row2, hmem2, ht2, _, hle2⟩
          have heq : row2 = row := hinj hmem2 hrowmem (by rw [ht2, hrowt])
          subst heq
          omega
      · rw [if_neg hexp]
        constructor
        · intro h
          simp only [Except.ok.injEq] at h
          exact ⟨row, hrowmem, hrowt, h, by omega⟩
        · rintro ⟨row2, hmem2, ht2, hu2, _⟩
          have heq : row2 = row := hinj hmem2 hrowmem (by rw [ht2, hrowt])
          subst heq
          rw [hu2]
    · intro hno
      rw [hvt2]
      by_cases hexp : row.expires < now
      · rw [if_pos hexp]
      · exact absurd ⟨row, hrowmem, hrowt, by omega⟩ hno

theorem verify_token_ok_iff_witness :
    (([⟨"tok", "alice", 10⟩] : List TokenRow).map TokenRow.token).Nodup ∧
    ((verify_token [⟨"tok", "alice", 10⟩] 3 (some ("Bearer " ++ "tok")) = .ok "alice" ↔
      ∃ row ∈ ([⟨"tok", "alice", 10⟩] : List TokenRow),
        row.token = "tok" ∧ row.username = "alice" ∧ (3 : Int) ≤ row.expires) ∧
    ((¬ ∃ row ∈ ([⟨"tok", "alice", 10⟩] : List TokenRow),
        row.token = "tok" ∧ (3 : Int) ≤ row.expires) →
      verify_token [⟨"tok", "alice", 10⟩] 3 (some ("Bearer " ++ "tok")) = .error 401)) :=
  ⟨by decide, verify_token_ok_iff [⟨"tok", "alice", 10⟩] 3 "tok" "alice" (by decide)⟩

theorem authenticate_find_none {users : List User} {tokens : List TokenRow}
    {now : Int} {newToken username codeword : String}
    (hf : users.find? (fun v => v.username == username) = none) :
    authenticate users tokens now newToken username codeword = .error 403 := by
  unfold authenticate
  rw [hf]

theorem authenticate_find_some {users : List User} {tokens : List TokenRow}
    {now : Int} {newToken username codeword : String} {v : User}
    (hf : users.find? (fun v => v.username == username) = some v) :
    authenticate users tokens now newToken username codeword =
      if v.codeword ≠ codeword then .error 403
      else .ok (tokens ++ [⟨newToken, username, now + 86400⟩], newToken,
        now + 86400) := by
  unfold authenticate
  rw [hf]

/-- C7: for a stored user whose codeword matches, `authenticate` issues a
fresh token expiring 24 h later, and validating that token immediately
(same `now`) returns the same username; when no stored user has the
requested username with a matching codeword — unknown user or wrong
codeword — `authenticate` fails with 403.  Hypotheses: the users table
primary key and the freshness of the randomly generated token. -/
theorem authenticate_roundtrip (users : List User) (tokens : List TokenRow)
    (now : Int) (newToken : String) (username codeword : String) (u : User)
    (hpk : (users.map User.username).Nodup)
    (hfresh : ∀ row ∈ tokens, row.token ≠ newToken) :
    (u ∈ users → u.username = username → u.codeword = codeword →
      authenticate users tokens now newToken username codeword
        = .ok (tokens ++ [⟨newToken, username, now + 86400⟩], newToken,
            now + 86400) ∧
      verify_token (tokens ++ [⟨newToken, username, now + 86400⟩]) now
        (some ("Bearer " ++ newToken)) = .ok username) ∧
    ((∀ v ∈ users, v.username = username → v.codeword ≠ codeword) →
      authenticate users tokens now newToken username codeword
        = .error 403) := by
  constructor
  · intro hu hun hcw
    have hpu : (fun v => v.username == username) u = true := by simp [hun]
    have hex : ∃ v, users.find? (fun v => v.username == username) = some v := by
      cases hf : users.find? (fun v => v.username == username) with
      | none => exact absurd hpu (by simpa using List.find?_eq_none.1 hf u hu)
      | some v => exact ⟨v, rfl⟩
    obtain ⟨v, hf⟩ := hex
    have hveq : v = u := by
      have hbeq := List.find?_some hf
      have hvu : v.username = username := eq_of_beq hbeq
      exact List.inj_on_of_nodup_map hpk (List.mem_of_find?_eq_some hf) hu
        (by rw [hvu, hun])
    subst hveq
    constructor
    · rw [authenticate_find_some hf, if_neg (by simp [hcw])]
    · have hfind2 : (tokens ++ [(⟨newToken, username, now + 86400⟩ : TokenRow)]).find?
          (fun r => r.token == newToken)
          = some (⟨newToken, username, now + 86400⟩ : TokenRow) := by
        rw [List.find?_append]
        have h1 : tokens.find? (fun r => r.token == newToken) = none :=
          List.find?_eq_none.2 (fun row hrow => by simpa using hfresh row hrow)
        rw [h1]
        simp
      have hv2 := verify_token_bearer
        (tokens ++ [⟨newToken, username, now + 86400⟩]) now newToken
      rw [hfind2] at hv2
      have hv3 : verify_token (tokens ++ [⟨newToken, username, now + 86400⟩])
          now (some ("Bearer " ++ newToken))
          = if now + 86400 < now then .error 401 else .ok username := hv2
      rw [hv3, if_neg (by omega)]
  · intro hno
    cases hf : users.find? (fun v => v.username == username) with
    | none => exact authenticate_find_none hf
    | some v =>
      have hbeq := List.find?_some hf
      have hvu : v.username = username := eq_of_beq hbeq
      rw [authenticate_find_some hf,
        if_pos (hno v (List.mem_of_find?_eq_some hf) hvu)]

theorem authenticate_roundtrip_witness :
    (([⟨"alice", "x", true⟩] : List User).map User.username).Nodup ∧
    (∀ row ∈ ([] : List TokenRow), row.token ≠ "tok") ∧
    (((⟨"alice", "x", true⟩ : User) ∈ ([⟨"alice", "x", true⟩] : List User) →
        (⟨"alice", "x", true⟩ : User).username = "alice" →
        (⟨"alice", "x", true⟩ : User).codeword = "x" →
      authenticate [⟨"alice", "x", true⟩] [] 0 "tok" "alice" "x"
        = .ok ([⟨"tok", "alice", 0 + 86400⟩], "tok", 0 + 86400) ∧
      verify_token [⟨"tok", "alice", 0 + 86400⟩] 0 (some ("Bearer " ++ "tok"))
        = .ok "alice") ∧
    ((∀ v ∈ ([⟨"alice", "x", true⟩] : List User), v.username = "alice" →
        v.codeword ≠ "x") →
      authenticate [⟨"alice", "x", true⟩] [] 0 "tok" "alice" "x"
        = .error 403)) :=
  ⟨by decide, by decide,
   authenticate_roundtrip [⟨"alice", "x", true⟩] [] 0 "tok" "alice" "x"
     ⟨"alice", "x", true⟩ (by decide) (by decide)⟩

/-- C4 counterexample: the `try/except` in `lifespan` wraps the whole
bootstrap loop, so the malformed second entry (missing `username`) aborts
the loop: the well-formed third entry `b` is NOT upserted, while without
the malformed entry it would be — contradicting "every remaining
well-formed entry in the list is still processed". -/
theorem initUsers_abort_cex :
    initUsers [⟨some "a", some "x", none⟩, ⟨none, some "z", none⟩,
        ⟨some "b", some "y", none⟩] []
      = [⟨"a", "x", true⟩] ∧
    initUsers [⟨some "a", some "x", none⟩, ⟨some "b", some "y", none⟩] []
      = [⟨"a", "x", true⟩, ⟨"b", "y", true⟩] :=
  ⟨by decide, by decide⟩

/-- C4 (amended): a malformed entry is logged and never aborts server
startup (the bootstrap function still returns), and every well-formed
entry BEFORE it is processed — but it aborts processing of the entries
after it: bootstrapping `pre ++ bad :: post` equals bootstrapping `pre`
alone when every entry of `pre` is well-formed and `bad` is missing its
username or codeword. -/
theorem initUsers_stops_at_malformed (pre post : List RawEntry)
    (bad : RawEntry) (users : List User)
    (hpre : ∀ e ∈ pre, e.username.isSome ∧ e.codeword.isSome)
    (hbad : bad.username = none ∨ bad.codeword = none) :
    initUsers (pre ++ bad :: post) users = initUsers pre users := by
  revert hpre
  induction pre generalizing users with
  | nil =>
    intro _
    obtain ⟨bu, bc, bih⟩ := bad
    simp only [List.nil_append]
    cases bu with
    | none => rfl
    | some s =>
      cases bc with
      | none => rfl
      | some c =>
        rcases hbad with h | h
        · exact Option.noConfusion h
        · exact Option.noConfusion h
  | cons e rest ih =>
    intro hpre
    obtain ⟨h1, h2⟩ := hpre e (List.mem_cons_self _ _)
    obtain ⟨eu, ec, eh⟩ := e
    cases eu with
    | none => exact Bool.noConfusion h1
    | some un =>
      cases ec with
      | none => exact Bool.noConfusion h2
      | some cw =>
        show initUsers (rest ++ bad :: post) (upsertUser users un cw (eh.getD true))
          = initUsers rest (upsertUser users un cw (eh.getD true))
        exact ih _ (fun x hx => hpre x (List.mem_cons_of_mem _ hx))

theorem initUsers_stops_at_malformed_witness :
    (∀ e ∈ ([⟨some "a", some "x", none⟩] : List RawEntry),
      e.username.isSome ∧ e.codeword.isSome) ∧
    ((⟨none, some "z", none⟩ : RawEntry).username = none ∨
      (⟨none, some "z", none⟩ : RawEntry).codeword = none) ∧
    initUsers (([⟨some "a", some "x", none⟩] : List RawEntry)
        ++ (⟨none, some "z", none⟩ : RawEntry) :: [⟨some "b", some "y", none⟩]) []
      = initUsers [⟨some "a", some "x", none⟩] [] :=
  ⟨by decide, by decide,
   initUsers_stops_at_malformed [⟨some "a", some "x", none⟩]
     [⟨some "b", some "y", none⟩] ⟨none, some "z", none⟩ []
     (by decide) (by decide)⟩
